import Mathlib

/-!
# Verification of the Xtract cat-file extractor

A shallow embedding of `xtract.py` (Egosoft X4 cat/dat archive extractor).

The embedding models:
* Python `pathlib.PurePosixPath` values as an absolute flag plus a component
  list (`PyPath`), with the `name` / `suffix` / `parent` / `/` operations the
  source uses;
* the index-record parsing performed inline in `extract_cat`
  (`line.strip().split(" ")`, `fields[0]`, `int(fields[-3])`);
* `extract_cat` itself as a fold over the index lines carrying the data-stream
  cursor, the write events, the directories created, the log events and the
  pending exception (an uncaught Python exception is recorded in `err` and
  short-circuits the rest of the pass, matching stack unwinding);
* file-system failures (mkdir / open / write raising `OSError`) through an
  explicit `Oracle`, since the Python code's behaviour branches on them;
* `collect_files`, `extraction_job` and `main` over an abstract directory
  `World`.
-/

namespace Xtract

/-- A POSIX-style path as Python `pathlib` represents it: an `absolute` flag
plus the list of components.  `pathlib` drops empty and `"."` components at
construction and keeps `".."`. -/
structure PyPath where
  absolute : Bool
  components : List String
deriving DecidableEq

/-- Python `str.strip()` whitespace (the ASCII part; no field in scope
carries non-ASCII whitespace). -/
def isPyWs (c : Char) : Bool :=
  c == ' ' || c == '\t' || c == '\n' || c == '\r' || c == '\x0b' || c == '\x0c'

/-- Python `str.strip()` on a character list. -/
def trimChars (cs : List Char) : List Char :=
  ((cs.dropWhile isPyWs).reverse.dropWhile isPyWs).reverse

/-- Python `str.split(sep)` for a one-character separator: empty pieces are
kept, and the empty string yields `[""]`. -/
def splitChars (sep : Char) : List Char → List (List Char)
  | [] => [[]]
  | c :: rest =>
    match splitChars sep rest with
    | [] => [[]]
    | h :: t => if c == sep then [] :: h :: t else (c :: h) :: t

/-- `suffix` is a suffix of `s` (Python `str.endswith`). -/
def endsWithChars (s suffix : String) : Bool :=
  suffix.toList.reverse.isPrefixOf s.toList.reverse

/-- `pathlib.Path(s)` for a POSIX path string. -/
def parsePyPath (s : String) : PyPath :=
  { absolute := match s.toList with | '/' :: _ => true | _ => false
    components := ((splitChars '/' s.toList).map String.mk).filter
      (fun c => c != "" && c != ".") }

/-- `Path.name`: the final component, `""` when there is none. -/
def pyName (p : PyPath) : String :=
  p.components.getLastD ""

/-- Index of the last `'.'` in a character list, if any. -/
def lastDotIdx (cs : List Char) : Option Nat :=
  match cs.reverse.findIdx? (fun c => c == '.') with
  | some j => some (cs.length - 1 - j)
  | none => none

/-- `Path.suffix`: `name[i:]` where `i` is the index of the last dot of the
final component, provided `0 < i < len(name) - 1`; otherwise `""`.  This is
the exact rule of `pathlib` (so `"file"`, `".txt"` and `"file."` all have
suffix `""`). -/
def pySuffix (p : PyPath) : String :=
  let cs := (pyName p).toList
  match lastDotIdx cs with
  | some i => if 0 < i ∧ i < cs.length - 1 then String.mk (cs.drop i) else ""
  | none => ""

/-- `filepath.suffix[1:]`: the extension without its leading dot, as the
source compares it against the extension filter (src/xtract.py:103). -/
def extOf (p : PyPath) : String :=
  (pySuffix p).drop 1

/-- `Path.parent`: drop the final component. -/
def pyParent (p : PyPath) : PyPath :=
  { absolute := p.absolute, components := p.components.dropLast }

/-- The `/` operator of `pathlib`: an absolute right operand replaces the
left one entirely; otherwise components are concatenated. -/
def joinPath (a b : PyPath) : PyPath :=
  if b.absolute then b
  else { absolute := a.absolute, components := a.components ++ b.components }

/-- OS-level resolution of `".."` components (a `".."` pops the previous
component; at the top it is dropped), accumulator style. -/
def resolveComps (acc : List String) : List String → List String
  | [] => acc
  | c :: rest =>
      if c = ".." then resolveComps acc.dropLast rest
      else resolveComps (acc ++ [c]) rest

/-- A path with its `".."` components resolved away. -/
def osResolve (p : PyPath) : PyPath :=
  { absolute := p.absolute, components := resolveComps [] p.components }

/-- `q` designates a file-system location inside the subtree rooted at
`root`, once the OS has resolved `".."` components. -/
def underSubtree (root q : PyPath) : Bool :=
  (osResolve root).absolute == (osResolve q).absolute &&
    (osResolve root).components.isPrefixOf (osResolve q).components

/-- Decimal value of a digit list. -/
def digitsVal (cs : List Char) : Nat :=
  cs.foldl (fun a c => a * 10 + (c.toNat - '0'.toNat)) 0

/-- A non-empty all-digit list, as a number. -/
def decNat (cs : List Char) : Option Nat :=
  if cs ≠ [] ∧ cs.all (fun c => c.isDigit) then some (digitsVal cs) else none

/-- Python `int(s)` on a whitespace-free field: an optional sign followed by
one or more ASCII digits (underscore grouping and non-ASCII digits are not
modelled; no field in scope uses them). -/
def pyInt (s : String) : Option Int :=
  match s.toList with
  | '-' :: rest => (decNat rest).map (fun n => -(n : Int))
  | '+' :: rest => (decNat rest).map (fun n => (n : Int))
  | cs => (decNat cs).map (fun n => (n : Int))

/-- Python exception kinds the modelled code can raise. -/
inductive XErr where
  | fileNotFound
  | indexError
  | valueError
  | osError
  | keyError
deriving DecidableEq

/-- One parsed index record: `filepath = Path(fields[0])` and
`size = int(fields[-3])` (src/xtract.py:99-100). -/
structure Record where
  path : PyPath
  size : Int
deriving DecidableEq

/-- The per-line record parsing inlined in `extract_cat`
(src/xtract.py:97-100): `fields = line.strip().split(" ")`, the path is
`fields[0]`, the size `int(fields[-3])`.  `fields[-3]` raises `IndexError`
when fewer than three fields exist; `int` raises `ValueError` on a
non-numeric field. -/
def parseFields (fields : List String) : Except XErr Record :=
  let filepath := parsePyPath (fields.headD "")
  if fields.length ≥ 3 then
    match pyInt (fields.getD (fields.length - 3) "") with
    | some n => .ok { path := filepath, size := n }
    | none => .error .valueError
  else .error .indexError

/-- `parseFields` applied to `line.strip().split(" ")`. -/
def parseRecord (line : String) : Except XErr Record :=
  parseFields ((splitChars ' ' (trimChars line.toList)).map String.mk)

/-- Log events, structured rather than as formatted strings. -/
inductive LogMsg where
  /-- `logger.info(f"Processing {cat_file}...")` (src/xtract.py:83). -/
  | procInfo
  /-- `logger.info(f"Processed {i} lines...")` every 10000 lines. -/
  | progressInfo (i : Nat)
  /-- `logger.warning` for a missing companion dat file (src/xtract.py:89). -/
  | missingDatWarn
  /-- `logger.warning` in the `except OSError` branch (src/xtract.py:115). -/
  | writeWarn (p : PyPath)
  /-- `logger.error` in the `except Exception` branch (src/xtract.py:117);
  unreachable under this oracle, which only raises `OSError`. -/
  | unexpectedErr (p : PyPath)
  /-- The final `logger.debug` of `extract_cat` (src/xtract.py:119). -/
  | doneDebug
  /-- `logger.error(f"Error extracting {cat_file}: {e}")` in
  `extraction_job` (src/xtract.py:172). -/
  | jobError (e : XErr)
  /-- `logger.warning(f"No expansions directory found ...")`
  (src/xtract.py:215). -/
  | noExpansionsWarn
deriving DecidableEq

/-- Injected file-system failures: whether `mkdir`, `open(..., "wb")` or
`write` raises `OSError` at a given path. -/
structure Oracle where
  mkdirFails : PyPath → Bool
  openFails : PyPath → Bool
  writeFails : PyPath → Bool

/-- The oracle under which every file-system operation succeeds. -/
def okOracle : Oracle :=
  { mkdirFails := fun _ => false, openFails := fun _ => false
    writeFails := fun _ => false }

/-- State of one `extract_cat` pass: data-stream cursor, write events
(chronological `(path, bytes)` pairs), directories created, log events, and
the uncaught exception unwinding the pass, if any. -/
structure XState where
  pos : Nat
  events : List (PyPath × List Nat)
  dirs : List PyPath
  logs : List LogMsg
  err : Option XErr
deriving DecidableEq

/-- Read-only context of one `extract_cat` pass. -/
structure Ctx where
  output : PyPath
  exts : List String
  orc : Oracle
  initDirs : List PyPath
  dat : List Nat

/-- `Path.is_dir()` against the directories existing before the pass plus
those the pass created. -/
def isDirAt (ctx : Ctx) (s : XState) (p : PyPath) : Bool :=
  ctx.initDirs.contains p || s.dirs.contains p

/-- Bytes returned by Python `file.read(n)` at cursor `pos`: a negative `n`
reads to EOF, otherwise at most `n` bytes are returned (short at EOF). -/
def readBytes (dat : List Nat) (pos : Nat) (n : Int) : List Nat :=
  if n < 0 then dat.drop pos else (dat.drop pos).take n.toNat

/-- Cursor position after `file.read(n)`. -/
def readAdv (dat : List Nat) (pos : Nat) (n : Int) : Nat :=
  pos + (readBytes dat pos n).length

/-- The `if i % 10000 == 0: logger.info(...)` at the top of the loop body
(src/xtract.py:94-95). -/
def progLog (k : Nat) (s : XState) : XState :=
  if k % 10000 = 0 then { s with logs := s.logs ++ [.progressInfo k] } else s

/-- The record-handling part of the loop body (src/xtract.py:97-117). -/
def processRec (ctx : Ctx) (s : XState) (line : String) : XState :=
  match parseRecord line with
  | .error e => { s with err := some e }
  | .ok r =>
    if extOf r.path ∉ ctx.exts then
      { s with pos := readAdv ctx.dat s.pos r.size }
    else
      let parentDir := joinPath ctx.output (pyParent r.path)
      let s1 :=
        if isDirAt ctx s parentDir then s
        else if ctx.orc.mkdirFails parentDir then { s with err := some .osError }
        else { s with dirs := s.dirs ++ [parentDir] }
      if s1.err.isSome then s1
      else
        let target := joinPath ctx.output r.path
        if ctx.orc.openFails target then
          { s1 with logs := s1.logs ++ [.writeWarn target] }
        else
          let bytes := readBytes ctx.dat s1.pos r.size
          let s2 := { s1 with pos := readAdv ctx.dat s1.pos r.size }
          if ctx.orc.writeFails target then
            { s2 with logs := s2.logs ++ [.writeWarn target] }
          else
            { s2 with events := s2.events ++ [(target, bytes)] }

/-- One iteration of the `for i, line in enumerate(c_file, start=1)` loop of
`extract_cat` (src/xtract.py:93-117).  A state with a pending exception is
returned unchanged: the Python exception has unwound the loop.  Note that
the `mkdir` call sits outside the `try`, so its failure sets `err`, and that
on an `open` failure the `d_file.read(size)` argument of `outf.write` is
never evaluated, so the cursor does not advance. -/
def processLine (ctx : Ctx) (s : XState) (il : Nat × String) : XState :=
  if s.err.isSome then s else processRec ctx (progLog il.1 s) il.2

/-- State at the top of `extract_cat`, after the opening `logger.info`. -/
def initState : XState :=
  { pos := 0, events := [], dirs := [], logs := [.procInfo], err := none }

/-- `extract_cat(cat_file, output, extensions)` (src/xtract.py:69-119).
`catExists` models `cat_file.exists()`; `lines` are the index file's lines;
`dat` is `some bytes` when the companion dat file exists.  The result's
`err` is the exception propagated to the caller, if any; effects performed
before the exception persist, as on a real file system. -/
def extract_cat (catExists : Bool) (lines : List String) (dat : Option (List Nat))
    (output : PyPath) (exts : List String) (orc : Oracle)
    (initDirs : List PyPath) : XState :=
  if catExists = false then { initState with err := some .fileNotFound }
  else
    match dat with
    | none => { initState with logs := initState.logs ++ [.missingDatWarn] }
    | some d =>
      let ctx : Ctx := { output := output, exts := exts, orc := orc
                         initDirs := initDirs, dat := d }
      let s := (List.enumFrom 1 lines).foldl (processLine ctx) initState
      if s.err.isSome then s else { s with logs := s.logs ++ [.doneDebug] }

/-- One `.cat` file in a directory, with its contents: the stem of its name,
its index lines, and the bytes of its companion `.dat` file (`none` when the
dat file does not exist).  A directory is modelled as the list of its `.cat`
files, which is exactly what `source_dir.glob("*.cat")` enumerates. -/
structure CatEntry where
  stem : String
  lines : List String
  dat : Option (List Nat)
deriving DecidableEq

/-- `f.name` for a cat entry. -/
def catName (f : CatEntry) : String := f.stem ++ ".cat"

/-- `collect_files(source_dir, include)` (src/xtract.py:122-147): keep the
`.cat` files whose stem does not end in `"_sig"`, raise `FileNotFoundError`
when none remain, then narrow to exactly-matching names when `includeNames`
is non-empty. -/
def catCandidates (cats : List CatEntry) : List CatEntry :=
  cats.filter (fun f => !(endsWithChars f.stem "_sig"))

def collect_files (cats : List CatEntry) (includeNames : List String) :
    Except XErr (List CatEntry) :=
  if catCandidates cats = [] then .error .fileNotFound
  else if includeNames ≠ [] then
    .ok ((catCandidates cats).filter (fun f => decide (catName f ∈ includeNames)))
  else .ok (catCandidates cats)

/-- Accumulated outcome of one extraction job: all write events, directories
created, log events, and the number of cat files processed. -/
structure JobState where
  events : List (PyPath × List Nat)
  dirs : List PyPath
  logs : List LogMsg
  processed : Nat
deriving DecidableEq

/-- `extraction_job(target, files, output_dir, extensions)`
(src/xtract.py:150-173): run `extract_cat` on every cat file in order; an
exception raised by one file is caught (`except Exception`), logged, and the
loop continues with the next file.  Progress-bar calls are not modelled (the
spec treats the observer as an external collaborator).  Directories created
by earlier files of the job are visible to later ones. -/
def extraction_job (files : List CatEntry) (outputDir : PyPath)
    (exts : List String) (orc : Oracle) (initDirs : List PyPath) : JobState :=
  files.foldl
    (fun js f =>
      let r := extract_cat true f.lines f.dat outputDir exts orc
        (initDirs ++ js.dirs)
      { events := js.events ++ r.events
        dirs := js.dirs ++ r.dirs
        logs := js.logs ++ r.logs ++
          (match r.err with | some e => [.jobError e] | none => [])
        processed := js.processed + 1 })
    { events := [], dirs := [], logs := [], processed := 0 }

/-- One expansion directory under `foundation_dir/extensions`: its name
(already filtered by the `ego_dlc_` prefix convention, which the spec calls
an external collaborator concern) and the cat files it contains. -/
structure Expansion where
  name : String
  cats : List CatEntry
deriving DecidableEq

/-- The directory layout `main` operates on: the cat files of the foundation
directory, and the expansion directories when `foundation_dir/extensions`
exists (`none` models an absent extensions directory). -/
structure World where
  foundationCats : List CatEntry
  extensionsDir : Option (List Expansion)
deriving DecidableEq

/-- The `EXPANSIONS` identifier → display-name table (src/xtract.py:22-32). -/
def EXPANSIONS : List (String × String) :=
  [("ego_dlc_boron", "Kingdoms End"),
   ("ego_dlc_pirate", "Tides of Avarice"),
   ("ego_dlc_split", "Split Vendetta"),
   ("ego_dlc_terran", "Cradle of Humanity"),
   ("ego_dlc_timelines", "Timelines"),
   ("ego_dlc_ventures", "Ventures"),
   ("ego_dlc_mini_01", "Hyperion"),
   ("ego_dlc_mini_02", "..."),
   ("ego_dlc_mini_03", "...")]

/-- The body of `main`'s per-expansion resolution loop (src/xtract.py:218-223):
the `EXPANSIONS[expansion.name]` lookup in the log call raises `KeyError` on
an unmapped name; the expansion's target directory is created when missing
(a failing `mkdir` raises); then `collect_files` runs on the expansion
directory.  Any exception propagates out of `main`. -/
def resolveOne (targetDir : PyPath) (filesSpecified : List String)
    (orc : Oracle) (initDirs : List PyPath) (e : Expansion) :
    Except XErr (String × List CatEntry) :=
  match EXPANSIONS.lookup e.name with
  | none => .error .keyError
  | some _ =>
    let expTargetDir := joinPath targetDir ⟨false, [e.name]⟩
    if !(initDirs.contains expTargetDir) && orc.mkdirFails expTargetDir then
      .error .osError
    else
      (collect_files e.cats filesSpecified).map (fun fs => (e.name, fs))

/-- The `for expansion in official_expansions` resolution loop
(src/xtract.py:218-223), building the expansion targets in order; the first
exception aborts the loop and propagates. -/
def resolveAll (targetDir : PyPath) (filesSpecified : List String)
    (orc : Oracle) (initDirs : List PyPath) :
    List Expansion → Except XErr (List (String × List CatEntry))
  | [] => .ok []
  | e :: rest => do
      let t ← resolveOne targetDir filesSpecified orc initDirs e
      let ts ← resolveAll targetDir filesSpecified orc initDirs rest
      .ok (t :: ts)

/-- Outcome of one `main` run: the jobs dispatched to the thread pool, each
with its target name and result, plus `main`'s own log events. -/
structure MainResult where
  jobs : List (String × JobState)
  logs : List LogMsg
deriving DecidableEq

/-- Dispatch one extraction job per resolved target (src/xtract.py:231-250):
the base target writes at `target_dir`, the others at
`target_dir / target`.  Jobs are independent (disjoint state), so running
them sequentially here is an exact model of the thread pool's effect. -/
def dispatchJobs (targets : List (String × List CatEntry)) (targetDir : PyPath)
    (fileTypes : List String) (orc : Oracle) (initDirs : List PyPath) :
    List (String × JobState) :=
  targets.map (fun t =>
    (t.1,
     extraction_job t.2
       (if t.1 = "base" then targetDir else joinPath targetDir ⟨false, [t.1]⟩)
       fileTypes orc initDirs))

/-- `main(foundation_dir, target_dir, expansions, file_types, files_specified)`
(src/xtract.py:176-250).  The base target is collected first; with
expansions requested, a missing extensions directory logs a warning and then
`return`s (src/xtract.py:216) — before the thread-pool dispatch, so no job
at all runs; an exception in the expansion-resolution loop propagates out of
`main`. -/
def main (w : World) (targetDir : PyPath) (expansions : Bool)
    (fileTypes : List String) (filesSpecified : List String) (orc : Oracle)
    (initDirs : List PyPath) : Except XErr MainResult := do
  let base ← collect_files w.foundationCats filesSpecified
  match expansions, w.extensionsDir with
  | true, none =>
      pure { jobs := [], logs := [.noExpansionsWarn] }
  | true, some exps => do
      let resolved ← resolveAll targetDir filesSpecified orc initDirs exps
      pure { jobs := dispatchJobs (("base", base) :: resolved) targetDir
                       fileTypes orc initDirs
             logs := [] }
  | false, _ =>
      pure { jobs := dispatchJobs [("base", base)] targetDir fileTypes orc
                       initDirs
             logs := [] }

/-- Sum of the declared byte lengths of a record list (as `Nat`s; meaningful
when every size is non-negative). -/
def sizeSum (records : List Record) : Nat :=
  (records.map (fun r => r.size.toNat)).sum

/-- The write events the spec predicts for a well-formed pass: one event per
record whose extension is in the filter, carrying exactly that record's
declared byte range of the data file, in index order. -/
def expectedWrites (output : PyPath) (exts : List String) (dat : List Nat) :
    List Record → Nat → List (PyPath × List Nat)
  | [], _ => []
  | r :: rs, off =>
    if extOf r.path ∈ exts then
      (joinPath output r.path, (dat.drop off).take r.size.toNat) ::
        expectedWrites output exts dat rs (off + r.size.toNat)
    else expectedWrites output exts dat rs (off + r.size.toNat)

/-! ## Helper lemmas -/

/-- The job fold step, named so its fold can be reasoned about. -/
def jobStep (outputDir : PyPath) (exts : List String) (orc : Oracle)
    (initDirs : List PyPath) (js : JobState) (f : CatEntry) : JobState :=
  let r := extract_cat true f.lines f.dat outputDir exts orc
    (initDirs ++ js.dirs)
  { events := js.events ++ r.events
    dirs := js.dirs ++ r.dirs
    logs := js.logs ++ r.logs ++
      (match r.err with | some e => [.jobError e] | none => [])
    processed := js.processed + 1 }

lemma extraction_job_eq_foldl (files : List CatEntry) (outputDir : PyPath)
    (exts : List String) (orc : Oracle) (initDirs : List PyPath) :
    extraction_job files outputDir exts orc initDirs =
      files.foldl (jobStep outputDir exts orc initDirs)
        { events := [], dirs := [], logs := [], processed := 0 } := rfl

lemma foldl_jobStep_processed (outputDir : PyPath) (exts : List String)
    (orc : Oracle) (initDirs : List PyPath) :
    ∀ (files : List CatEntry) (js : JobState),
      (files.foldl (jobStep outputDir exts orc initDirs) js).processed =
        js.processed + files.length := by
  intro files
  induction files with
  | nil => intro js; simp
  | cons f rest ih =>
      intro js
      rw [List.foldl_cons, ih]
      simp [jobStep]
      omega

/-! ## Claims -/

/-- C7: if the cat file exists but its companion dat file does not,
`extract_cat` is a no-op: it performs no write and creates no directory,
logs exactly one warning (the `missingDatWarn` after the opening info), and
surfaces no exception (`err = none`), for every index content, output root,
extension filter and file-system condition. -/
theorem C7_missing_dat_noop (lines : List String) (output : PyPath)
    (exts : List String) (orc : Oracle) (initDirs : List PyPath) :
    extract_cat true lines none output exts orc initDirs =
      { pos := 0, events := [], dirs := [], logs := [.procInfo, .missingDatWarn],
        err := none } := rfl

/-- C9 (code bug): with expansions requested and the extensions directory
absent, `main` logs the warning and then `return`s (src/xtract.py:216)
before the thread-pool dispatch, so zero jobs run — the base target's
perfectly extractable archive is never extracted.  The second conjunct runs
the identical world without expansions and shows the base job would have
extracted `f.xml`. -/
theorem C9_base_never_runs :
    main ⟨[⟨"base", ["f.xml x y 1 0 0"], some [9]⟩], none⟩ ⟨false, ["dest"]⟩
        true ["xml"] [] okOracle [] =
      .ok { jobs := [], logs := [.noExpansionsWarn] } ∧
    main ⟨[⟨"base", ["f.xml x y 1 0 0"], some [9]⟩], none⟩ ⟨false, ["dest"]⟩
        false ["xml"] [] okOracle [] =
      .ok { jobs := [("base",
              { events := [(⟨false, ["dest", "f.xml"]⟩, [9])],
                dirs := [⟨false, ["dest"]⟩],
                logs := [.procInfo, .doneDebug], processed := 1 })],
            logs := [] } := ⟨rfl, rfl⟩

/-- C10 (counterexample): a `NoArchivesFound` (`FileNotFoundError`) raised
while resolving the expansion `ego_dlc_boron` (whose directory holds only a
signature cat file) propagates out of `main`: the run aborts with the error
and neither the base target nor the healthy sibling `ego_dlc_split` is ever
dispatched, contradicting the claim that only the failing target aborts. -/
theorem C10_counterexample :
    main ⟨[⟨"base", ["f.xml x y 1 0 0"], some [9]⟩],
          some [⟨"ego_dlc_boron", [⟨"x_sig", [], none⟩]⟩,
                ⟨"ego_dlc_split", [⟨"e", ["g.xml x y 1 0 0"], some [5]⟩]⟩]⟩
        ⟨false, ["dest"]⟩ true ["xml"] []
        okOracle
        [⟨false, ["dest", "ego_dlc_boron"]⟩, ⟨false, ["dest", "ego_dlc_split"]⟩] =
      .error .fileNotFound := rfl

/-- C4 (counterexample): a blank index line is not skipped: `extract_cat`
raises an uncaught `IndexError` (from `fields[-3]` on the single empty
field) that aborts the pair's pass. -/
theorem C4_counterexample :
    (extract_cat true [""] (some []) ⟨false, ["out"]⟩ ["xml"] okOracle
        []).err = some .indexError ∧
    (extract_cat true [""] (some []) ⟨false, ["out"]⟩ ["xml"] okOracle
        []).events = [] := ⟨rfl, rfl⟩

/-- C4 (amended): every blank or whitespace-only index line makes the
record parsing step fail with an `IndexError` (the stripped line splits into
the single field `""`, so `fields[-3]` is out of range), which aborts that
archive pair's pass rather than being skipped. -/
theorem C4_amended (line : String) (h : trimChars line.toList = []) :
    parseRecord line = .error .indexError := by
  rw [parseRecord, h]
  rfl

/-- Witness for `C4_amended` at a whitespace-only line. -/
theorem C4_amended_witness :
    trimChars ("  " : String).toList = [] ∧
      parseRecord "  " = .error .indexError :=
  ⟨rfl, C4_amended "  " rfl⟩

/-- C5 (counterexample): the length parser is Python's `int`, which accepts
a sign: the line `"f.txt a b -5 0 0"` parses without error to a record with
the negative declared byte length `-5`, contradicting the claim that every
parsed byte length is non-negative. -/
theorem C5_counterexample :
    parseRecord "f.txt a b -5 0 0" =
      .ok { path := ⟨false, ["f.txt"]⟩, size := -5 } ∧
    ((-5 : Int) < 0) := ⟨rfl, by norm_num⟩

/-- C5 (amended): a parsed byte length is an integer that may be negative
(the parser accepts a sign, first conjunct); and a fatal error in one
archive pair's pass never aborts the run: `extraction_job` processes every
cat file of its list no matter which passes raise (second conjunct, where
`processed` counts the files for which `extract_cat` was invoked). -/
theorem C5_amended :
    parseRecord "f.txt a b -5 0 0" =
      .ok { path := ⟨false, ["f.txt"]⟩, size := -5 } ∧
    ∀ (files : List CatEntry) (outputDir : PyPath) (exts : List String)
      (orc : Oracle) (initDirs : List PyPath),
      (extraction_job files outputDir exts orc initDirs).processed =
        files.length := by
  refine ⟨rfl, ?_⟩
  intro files outputDir exts orc initDirs
  rw [extraction_job_eq_foldl, foldl_jobStep_processed]
  simp

/-- C2 (counterexample): when the `open` of the first record's output file
fails with a caught `OSError`, the `d_file.read(size)` argument of
`outf.write` is never evaluated, so the cursor does not advance: the second
record `b.xml` is then written with bytes `[10, 20]` — the first record's
byte range — instead of its own range `[30, 40]`, contradicting the claim
that the cursor advances by the declared length when a write failure is
caught. -/
theorem C2_counterexample :
    (extract_cat true ["a.xml x y 2 0 0", "b.xml x y 2 0 0"]
        (some [10, 20, 30, 40]) ⟨false, ["out"]⟩ ["xml"]
        { okOracle with
          openFails := fun p => decide (p = ⟨false, ["out", "a.xml"]⟩) }
        []).events =
      [(⟨false, ["out", "b.xml"]⟩, [10, 20])] := rfl

/-- C3 (counterexample): the `mkdir` call of `extract_cat` sits outside the
`try` block, so a directory-creation failure is not caught: the pass stops
with an uncaught `OSError` (`err = some`), and the remaining record `b.xml`
is never written, contradicting the claim that every per-record write
failure — including directory creation — is caught and processing
continues. -/
theorem C3_counterexample :
    (extract_cat true ["sub/a.xml x y 2 0 0", "b.xml x y 2 0 0"]
        (some [1, 2, 3, 4]) ⟨false, ["out"]⟩ ["xml"]
        { okOracle with
          mkdirFails := fun p => decide (p = ⟨false, ["out", "sub"]⟩) }
        []).err = some .osError ∧
    (extract_cat true ["sub/a.xml x y 2 0 0", "b.xml x y 2 0 0"]
        (some [1, 2, 3, 4]) ⟨false, ["out"]⟩ ["xml"]
        { okOracle with
          mkdirFails := fun p => decide (p = ⟨false, ["out", "sub"]⟩) }
        []).events = [] := ⟨rfl, rfl⟩

/-- C6 (counterexample): record paths are joined onto the output root
without sanitisation: the record `"../evil.xml"` is written at
`out/../evil.xml`, which resolves outside the `out` subtree, contradicting
the claim that no write ever lands outside the output root. -/
theorem C6_counterexample :
    (extract_cat true ["../evil.xml x y 2 0 0"] (some [7, 8])
        ⟨false, ["out"]⟩ ["xml"] okOracle []).events =
      [(⟨false, ["out", "..", "evil.xml"]⟩, [7, 8])] ∧
    underSubtree ⟨false, ["out"]⟩ ⟨false, ["out", "..", "evil.xml"]⟩ =
      false := ⟨rfl, rfl⟩

/-- C8: `collect_files` raises `NoArchivesFound` (`FileNotFoundError`)
exactly when the enumeration of non-signature archive files is empty (first
conjunct); when that enumeration is non-empty it never raises, returning the
enumeration itself for an empty include list and its narrowing to
exactly-matching names otherwise — so unmatched include names are silently
dropped and a filtered-to-empty result is `ok []`, not an error (second
conjunct); and every returned file is free of the `_sig` signature marker
(third conjunct). -/
theorem C8_collect (cats : List CatEntry) (includeNames : List String) :
    (collect_files cats includeNames = .error .fileNotFound ↔
      catCandidates cats = []) ∧
    (catCandidates cats ≠ [] →
      collect_files cats includeNames =
        .ok (if includeNames = [] then catCandidates cats
             else (catCandidates cats).filter
               (fun f => decide (catName f ∈ includeNames)))) ∧
    (∀ l, collect_files cats includeNames = .ok l →
      ∀ f ∈ l, endsWithChars f.stem "_sig" = false) := by
  by_cases h : catCandidates cats = []
  · refine ⟨⟨fun _ => h, fun _ => ?_⟩, fun hne => absurd h hne, ?_⟩
    · simp [collect_files, h]
    · intro l hl
      simp [collect_files, h] at hl
  · have hmem : ∀ f ∈ catCandidates cats, endsWithChars f.stem "_sig" = false := by
      intro f hf
      simp only [catCandidates] at hf
      have := (List.mem_filter.mp hf).2
      simpa using this
    by_cases hi : includeNames = []
    · refine ⟨⟨fun hc => ?_, fun hc => absurd hc h⟩, fun _ => ?_, ?_⟩
      · simp [collect_files, h, hi] at hc
      · simp [collect_files, h, hi]
      · intro l hl f hf
        simp [collect_files, h, hi] at hl
        exact hmem f (hl ▸ hf)
    · refine ⟨⟨fun hc => ?_, fun hc => absurd hc h⟩, fun _ => ?_, ?_⟩
      · simp [collect_files, h, hi] at hc
      · simp [collect_files, h, hi]
      · intro l hl f hf
        simp [collect_files, h, hi] at hl
        exact hmem f (List.mem_of_mem_filter (hl ▸ hf))

/-- Witness for `C8_collect`: the directory `{a.cat, a_sig.cat, b.cat}` with
include list `["b.cat"]` returns exactly `b.cat`, and its entries carry no
signature marker. -/
theorem C8_collect_witness :
    collect_files [⟨"a", [], none⟩, ⟨"a_sig", [], none⟩, ⟨"b", [], none⟩]
        ["b.cat"] = .ok [⟨"b", [], none⟩] ∧
    endsWithChars "b" "_sig" = false := by
  have h := C8_collect [⟨"a", [], none⟩, ⟨"a_sig", [], none⟩, ⟨"b", [], none⟩]
    ["b.cat"]
  have hok := h.2.1 (by decide)
  refine ⟨hok.trans (by rfl), ?_⟩
  exact h.2.2 _ hok ⟨"b", [], none⟩ (by decide)

/-- The resolution loop fails with the first error: when every expansion of
`pre` resolves and `bad` fails with `err`, the whole loop is `error err`. -/
lemma resolveAll_append_error (targetDir : PyPath)
    (filesSpecified : List String) (orc : Oracle) (initDirs : List PyPath)
    (err : XErr) :
    ∀ (pre : List Expansion) (bad : Expansion) (post : List Expansion),
      (∀ e ∈ pre, ∃ t,
        resolveOne targetDir filesSpecified orc initDirs e = .ok t) →
      resolveOne targetDir filesSpecified orc initDirs bad = .error err →
      resolveAll targetDir filesSpecified orc initDirs (pre ++ bad :: post) =
        .error err := by
  intro pre
  induction pre with
  | nil =>
      intro bad post _ hbad
      simp [resolveAll, hbad]
      rfl
  | cons a rest ih =>
      intro bad post hpre hbad
      obtain ⟨b, hb⟩ := hpre a (List.mem_cons_self a rest)
      have hrest := ih bad post
        (fun x hx => hpre x (List.mem_cons_of_mem _ hx)) hbad
      simp [resolveAll, hb, hrest]
      rfl

/-- C10 (amended): an error raised while resolving one expansion target —
`NoArchivesFound` included — propagates out of `main`'s resolution loop
before the thread pool is entered: `main` returns that error, so no job is
dispatched for any target, not even the base or the healthy siblings.
(Failure isolation only exists after dispatch, per archive pair inside
`extraction_job`.) -/
theorem C10_amended (w : World) (targetDir : PyPath)
    (fileTypes filesSpecified : List String) (orc : Oracle)
    (initDirs : List PyPath) (pre post : List Expansion) (bad : Expansion)
    (base : List CatEntry) (err : XErr)
    (hdir : w.extensionsDir = some (pre ++ bad :: post))
    (hbase : collect_files w.foundationCats filesSpecified = .ok base)
    (hpre : ∀ e ∈ pre, ∃ t,
      resolveOne targetDir filesSpecified orc initDirs e = .ok t)
    (hbad : resolveOne targetDir filesSpecified orc initDirs bad = .error err) :
    main w targetDir true fileTypes filesSpecified orc initDirs =
      .error err := by
  have hmap := resolveAll_append_error targetDir filesSpecified orc initDirs
    err pre bad post hpre hbad
  simp [main, hbase, hdir, hmap]
  rfl

/-- Witness for `C10_amended`: one base archive, one expansion directory
holding only a signature cat file; the run aborts with `FileNotFoundError`
and no job is dispatched. -/
theorem C10_amended_witness :
    collect_files [⟨"base", [], some []⟩] [] = .ok [⟨"base", [], some []⟩] ∧
    resolveOne ⟨false, ["dest"]⟩ [] okOracle []
        ⟨"ego_dlc_boron", [⟨"y_sig", [], none⟩]⟩ = .error .fileNotFound ∧
    main ⟨[⟨"base", [], some []⟩],
          some [⟨"ego_dlc_boron", [⟨"y_sig", [], none⟩]⟩]⟩
        ⟨false, ["dest"]⟩ true ["xml"] [] okOracle [] =
      .error .fileNotFound := by
  refine ⟨rfl, rfl, ?_⟩
  exact C10_amended _ _ _ _ _ _ [] [] ⟨"ego_dlc_boron", [⟨"y_sig", [], none⟩]⟩
    [⟨"base", [], some []⟩] .fileNotFound rfl rfl (by simp) rfl

/-! ## Per-record step lemmas -/

lemma progLog_pos (k : Nat) (s : XState) : (progLog k s).pos = s.pos := by
  unfold progLog; split <;> rfl

lemma progLog_err (k : Nat) (s : XState) : (progLog k s).err = s.err := by
  unfold progLog; split <;> rfl

lemma progLog_events (k : Nat) (s : XState) :
    (progLog k s).events = s.events := by
  unfold progLog; split <;> rfl

lemma progLog_dirs (k : Nat) (s : XState) : (progLog k s).dirs = s.dirs := by
  unfold progLog; split <;> rfl

lemma isDirAt_progLog (ctx : Ctx) (k : Nat) (s : XState) (p : PyPath) :
    isDirAt ctx (progLog k s) p = isDirAt ctx s p := by
  simp [isDirAt, progLog_dirs]

lemma processLine_of_err_none (ctx : Ctx) (s : XState) (k : Nat) (l : String)
    (herr : s.err = none) :
    processLine ctx s (k, l) = processRec ctx (progLog k s) l := by
  simp [processLine, herr]

lemma readBytes_of_nonneg (dat : List Nat) (pos : Nat) (n : Int) (hnn : 0 ≤ n) :
    readBytes dat pos n = (dat.drop pos).take n.toNat := by
  simp [readBytes, not_lt.mpr hnn]

lemma readAdv_eq (dat : List Nat) (pos : Nat) (n : Int) (hnn : 0 ≤ n)
    (hb : pos + n.toNat ≤ dat.length) : readAdv dat pos n = pos + n.toNat := by
  rw [readAdv, readBytes_of_nonneg dat pos n hnn]
  simp only [List.length_take, List.length_drop]
  omega

/-- The four possible outcomes of one successfully parsed record, when
directory creation cannot fail: skip (extension filtered), caught open
failure (directories made, cursor unmoved), caught write failure (cursor
moved, nothing written), successful write. -/
lemma processRec_shape (ctx : Ctx) (s : XState) (line : String) (r : Record)
    (hp : parseRecord line = .ok r) (herr : s.err = none)
    (hmk : ∀ p, ctx.orc.mkdirFails p = false) :
    processRec ctx s line =
      if extOf r.path ∉ ctx.exts then
        { s with pos := readAdv ctx.dat s.pos r.size }
      else if ctx.orc.openFails (joinPath ctx.output r.path) then
        { s with
          dirs := s.dirs ++
            (if isDirAt ctx s (joinPath ctx.output (pyParent r.path)) then []
             else [joinPath ctx.output (pyParent r.path)]),
          logs := s.logs ++ [.writeWarn (joinPath ctx.output r.path)] }
      else if ctx.orc.writeFails (joinPath ctx.output r.path) then
        { s with
          dirs := s.dirs ++
            (if isDirAt ctx s (joinPath ctx.output (pyParent r.path)) then []
             else [joinPath ctx.output (pyParent r.path)]),
          pos := readAdv ctx.dat s.pos r.size,
          logs := s.logs ++ [.writeWarn (joinPath ctx.output r.path)] }
      else
        { s with
          dirs := s.dirs ++
            (if isDirAt ctx s (joinPath ctx.output (pyParent r.path)) then []
             else [joinPath ctx.output (pyParent r.path)]),
          pos := readAdv ctx.dat s.pos r.size,
          events := s.events ++
            [(joinPath ctx.output r.path, readBytes ctx.dat s.pos r.size)] } := by
  unfold processRec
  rw [hp]
  by_cases hext : extOf r.path ∈ ctx.exts
  · simp only [hext, not_true_eq_false, if_false]
    by_cases hdir : isDirAt ctx s (joinPath ctx.output (pyParent r.path))
    · simp only [hdir, if_true, herr, Option.isSome_none, Bool.false_eq_true,
        if_false]
      by_cases hopen : ctx.orc.openFails (joinPath ctx.output r.path)
      · simp [hopen]
      · by_cases hwrite : ctx.orc.writeFails (joinPath ctx.output r.path)
        · simp [hopen, hwrite]
        · simp [hopen, hwrite]
    · simp only [hdir, if_false, hmk, Bool.false_eq_true, herr,
        Option.isSome_none]
  · simp [hext]

lemma extract_cat_some (lines : List String) (dat : List Nat) (output : PyPath)
    (exts : List String) (orc : Oracle) (initDirs : List PyPath) :
    extract_cat true lines (some dat) output exts orc initDirs =
      (let s := (List.enumFrom 1 lines).foldl
        (processLine ⟨output, exts, orc, initDirs, dat⟩) initState
       if s.err.isSome then s else { s with logs := s.logs ++ [.doneDebug] }) :=
  rfl

lemma extract_cat_err (lines : List String) (dat : List Nat) (output : PyPath)
    (exts : List String) (orc : Oracle) (initDirs : List PyPath) :
    (extract_cat true lines (some dat) output exts orc initDirs).err =
      ((List.enumFrom 1 lines).foldl
        (processLine ⟨output, exts, orc, initDirs, dat⟩) initState).err := by
  rw [extract_cat_some]
  dsimp only
  split <;> rfl

lemma extract_cat_events (lines : List String) (dat : List Nat)
    (output : PyPath) (exts : List String) (orc : Oracle)
    (initDirs : List PyPath) :
    (extract_cat true lines (some dat) output exts orc initDirs).events =
      ((List.enumFrom 1 lines).foldl
        (processLine ⟨output, exts, orc, initDirs, dat⟩) initState).events := by
  rw [extract_cat_some]
  dsimp only
  split <;> rfl

lemma extract_cat_dirs (lines : List String) (dat : List Nat)
    (output : PyPath) (exts : List String) (orc : Oracle)
    (initDirs : List PyPath) :
    (extract_cat true lines (some dat) output exts orc initDirs).dirs =
      ((List.enumFrom 1 lines).foldl
        (processLine ⟨output, exts, orc, initDirs, dat⟩) initState).dirs := by
  rw [extract_cat_some]
  dsimp only
  split <;> rfl

/-- C2 (amended): for a parsed record with in-range non-negative length and
no directory-creation failure, the cursor advances by exactly the declared
byte length when the record is skipped or when its output file opens
(regardless of a subsequent caught write failure); when the open fails with
a caught `OSError`, the cursor does not advance. -/
theorem C2_amended (ctx : Ctx) (s : XState) (k : Nat) (line : String)
    (r : Record) (herr : s.err = none) (hp : parseRecord line = .ok r)
    (hnn : 0 ≤ r.size) (hb : s.pos + r.size.toNat ≤ ctx.dat.length)
    (hmk : ∀ p, ctx.orc.mkdirFails p = false) :
    (processLine ctx s (k, line)).pos =
      if extOf r.path ∈ ctx.exts ∧
          ctx.orc.openFails (joinPath ctx.output r.path) = true
      then s.pos
      else s.pos + r.size.toNat := by
  rw [processLine_of_err_none ctx s k line herr,
    processRec_shape ctx (progLog k s) line r hp
      (by rw [progLog_err, herr]) hmk]
  by_cases hext : extOf r.path ∈ ctx.exts
  · by_cases hopen : ctx.orc.openFails (joinPath ctx.output r.path)
    · simp [hext, hopen, progLog_pos]
    · by_cases hwrite : ctx.orc.writeFails (joinPath ctx.output r.path) <;>
        simp [hext, hopen, hwrite, progLog_pos,
          readAdv_eq ctx.dat s.pos r.size hnn hb]
  · simp [hext, progLog_pos, readAdv_eq ctx.dat s.pos r.size hnn hb]

/-- Witness for `C2_amended`: a record whose output file fails to open
leaves the cursor at 0. -/
theorem C2_amended_witness :
    (processLine
        ⟨⟨false, ["out"]⟩, ["xml"],
         { okOracle with
           openFails := fun p => decide (p = ⟨false, ["out", "a.xml"]⟩) },
         [], [1, 2]⟩
        initState (1, "a.xml x y 2 0 0")).pos = 0 := by
  have h := C2_amended
    ⟨⟨false, ["out"]⟩, ["xml"],
     { okOracle with
       openFails := fun p => decide (p = ⟨false, ["out", "a.xml"]⟩) },
     [], [1, 2]⟩
    initState 1 "a.xml x y 2 0 0" ⟨⟨false, ["a.xml"]⟩, 2⟩ rfl rfl
    (by decide) (by decide) (fun p => rfl)
  exact h.trans (by decide)

lemma processLine_err_none (ctx : Ctx) (s : XState) (k : Nat) (l : String)
    (hok : (parseRecord l).isOk = true)
    (hmk : ∀ p, ctx.orc.mkdirFails p = false) (herr : s.err = none) :
    (processLine ctx s (k, l)).err = none := by
  obtain ⟨r, hr⟩ : ∃ r, parseRecord l = .ok r := by
    cases h : parseRecord l with
    | ok r => exact ⟨r, rfl⟩
    | error e => rw [h] at hok; simp [Except.isOk, Except.toBool] at hok
  rw [processLine_of_err_none ctx s k l herr,
    processRec_shape ctx (progLog k s) l r hr (by rw [progLog_err, herr]) hmk]
  split_ifs <;> simp [progLog_err, herr]

lemma foldl_err_none (ctx : Ctx) (hmk : ∀ p, ctx.orc.mkdirFails p = false) :
    ∀ (lines : List String) (k : Nat) (s : XState),
      (∀ l ∈ lines, (parseRecord l).isOk = true) → s.err = none →
      ((List.enumFrom k lines).foldl (processLine ctx) s).err = none := by
  intro lines
  induction lines with
  | nil => intro k s _ herr; simpa [List.enumFrom] using herr
  | cons l rest ih =>
      intro k s hok herr
      have hcons : List.enumFrom k (l :: rest) =
          (k, l) :: List.enumFrom (k + 1) rest := rfl
      rw [hcons, List.foldl_cons]
      exact ih (k + 1) _ (fun x hx => hok x (List.mem_cons_of_mem _ hx))
        (processLine_err_none ctx s k l (hok l (List.mem_cons_self l rest))
          hmk herr)

/-- C3 (amended): when every index line parses and directory creation does
not fail, `extract_cat` surfaces no exception no matter which file opens or
writes fail: each such failure is caught, logged, and the pass continues to
the end of the index. -/
theorem C3_amended (lines : List String) (dat : List Nat) (output : PyPath)
    (exts : List String) (orc : Oracle) (initDirs : List PyPath)
    (hparse : ∀ l ∈ lines, (parseRecord l).isOk = true)
    (hmk : ∀ p, orc.mkdirFails p = false) :
    (extract_cat true lines (some dat) output exts orc initDirs).err =
      none := by
  have h := foldl_err_none ⟨output, exts, orc, initDirs, dat⟩ hmk lines 1
    initState hparse rfl
  rw [extract_cat_some]
  simp [h]

/-- Witness for `C3_amended`: a pass where every open fails still ends with
no exception. -/
theorem C3_amended_witness :
    (extract_cat true ["a.xml x y 1 0 0"] (some [5]) ⟨false, ["out"]⟩ ["xml"]
        { okOracle with openFails := fun _ => true } []).err = none :=
  C3_amended _ _ _ _ _ _ (by decide) (fun p => rfl)

/-! ## Exact-extraction fold invariant (C1) -/

lemma sizeSum_cons (r : Record) (rs : List Record) :
    sizeSum (r :: rs) = r.size.toNat + sizeSum rs := by
  simp [sizeSum]

lemma processLine_ok_step (ctx : Ctx) (horc : ctx.orc = okOracle)
    (s : XState) (k : Nat) (l : String) (r : Record)
    (hp : parseRecord l = .ok r) (herr : s.err = none) (hnn : 0 ≤ r.size)
    (hb : s.pos + r.size.toNat ≤ ctx.dat.length) :
    (processLine ctx s (k, l)).err = none ∧
    (processLine ctx s (k, l)).pos = s.pos + r.size.toNat ∧
    (processLine ctx s (k, l)).events = s.events ++
      (if extOf r.path ∈ ctx.exts then
        [(joinPath ctx.output r.path, (ctx.dat.drop s.pos).take r.size.toNat)]
       else []) := by
  rw [processLine_of_err_none ctx s k l herr,
    processRec_shape ctx (progLog k s) l r hp (by rw [progLog_err, herr])
      (by intro p; rw [horc]; rfl)]
  have hopen : ctx.orc.openFails (joinPath ctx.output r.path) = false := by
    rw [horc]; rfl
  have hwrite : ctx.orc.writeFails (joinPath ctx.output r.path) = false := by
    rw [horc]; rfl
  by_cases hext : extOf r.path ∈ ctx.exts
  · simp [hext, hopen, hwrite, progLog_err, herr, progLog_pos, progLog_events,
      readAdv_eq ctx.dat s.pos r.size hnn hb,
      readBytes_of_nonneg ctx.dat s.pos r.size hnn]
  · simp [hext, progLog_err, herr, progLog_pos, progLog_events,
      readAdv_eq ctx.dat s.pos r.size hnn hb]

lemma foldl_exact (ctx : Ctx) (horc : ctx.orc = okOracle) :
    ∀ (lines : List String) (records : List Record) (k : Nat) (s : XState),
      List.Forall₂ (fun l r => parseRecord l = Except.ok r) lines records →
      (∀ r ∈ records, 0 ≤ r.size) → s.err = none →
      s.pos + sizeSum records ≤ ctx.dat.length →
      ((List.enumFrom k lines).foldl (processLine ctx) s).err = none ∧
      ((List.enumFrom k lines).foldl (processLine ctx) s).pos =
        s.pos + sizeSum records ∧
      ((List.enumFrom k lines).foldl (processLine ctx) s).events =
        s.events ++ expectedWrites ctx.output ctx.exts ctx.dat records s.pos := by
  intro lines
  induction lines with
  | nil =>
      intro records k s hf hnn herr hb
      cases hf
      simp [List.enumFrom, sizeSum, expectedWrites, herr]
  | cons l rest ih =>
      intro records k s hf hnn herr hb
      cases hf with
      | cons hpr hrest =>
        rename_i r rs
        have hnnr : 0 ≤ r.size := hnn r (List.mem_cons_self r rs)
        have hbr : s.pos + r.size.toNat ≤ ctx.dat.length := by
          rw [sizeSum_cons] at hb; omega
        obtain ⟨e1, p1, v1⟩ :=
          processLine_ok_step ctx horc s k l r hpr herr hnnr hbr
        have hcons : List.enumFrom k (l :: rest) =
            (k, l) :: List.enumFrom (k + 1) rest := rfl
        rw [hcons, List.foldl_cons]
        have hb1 : (processLine ctx s (k, l)).pos + sizeSum rs ≤
            ctx.dat.length := by
          rw [p1]; rw [sizeSum_cons] at hb; omega
        obtain ⟨e2, p2, v2⟩ := ih rs (k + 1) (processLine ctx s (k, l)) hrest
          (fun x hx => hnn x (List.mem_cons_of_mem _ hx)) e1 hb1
        refine ⟨e2, ?_, ?_⟩
        · rw [p2, p1, sizeSum_cons]; omega
        · rw [v2, v1, p1]
          by_cases hext : extOf r.path ∈ ctx.exts <;>
            simp [expectedWrites, hext]

/-- C1: for a well-formed archive pair — every index line parses, every
declared length is non-negative, and the data length equals the sum of the
declared lengths — `extract_cat` under a failure-free file system surfaces
no exception and its write events are exactly one per record whose
extension is in the filter, in index order, each carrying precisely that
record's declared byte range of the data file (`expectedWrites`); records
whose extension is not in the filter produce no write. -/
theorem C1_exact (lines : List String) (records : List Record)
    (dat : List Nat) (output : PyPath) (exts : List String)
    (initDirs : List PyPath)
    (hpr : List.Forall₂ (fun l r => parseRecord l = Except.ok r) lines records)
    (hnn : ∀ r ∈ records, 0 ≤ r.size)
    (hlen : sizeSum records = dat.length) :
    (extract_cat true lines (some dat) output exts okOracle initDirs).err =
      none ∧
    (extract_cat true lines (some dat) output exts okOracle initDirs).events =
      expectedWrites output exts dat records 0 := by
  obtain ⟨he, hp2, hv⟩ := foldl_exact ⟨output, exts, okOracle, initDirs, dat⟩
    rfl lines records 1 initState hpr hnn rfl (by simp [initState, hlen])
  rw [extract_cat_err, extract_cat_events]
  exact ⟨he, by simpa [initState] using hv⟩

/-- Witness for `C1_exact`: two records, one matching the filter and one
filtered out; the matching one is written with its exact byte range. -/
theorem C1_exact_witness :
    (extract_cat true ["a.xml x y 3 0 0", "b.txt x y 2 0 0"]
        (some [1, 2, 3, 4, 5]) ⟨false, ["out"]⟩ ["xml"] okOracle []).err =
      none ∧
    (extract_cat true ["a.xml x y 3 0 0", "b.txt x y 2 0 0"]
        (some [1, 2, 3, 4, 5]) ⟨false, ["out"]⟩ ["xml"] okOracle []).events =
      expectedWrites ⟨false, ["out"]⟩ ["xml"] [1, 2, 3, 4, 5]
        [⟨⟨false, ["a.xml"]⟩, 3⟩, ⟨⟨false, ["b.txt"]⟩, 2⟩] 0 :=
  C1_exact _ _ _ _ _ _
    (List.Forall₂.cons rfl (List.Forall₂.cons rfl List.Forall₂.nil))
    (by decide) rfl

/-! ## Frame property (C6) -/

lemma processRec_events_cases (ctx : Ctx) (s : XState) (l : String) :
    (processRec ctx s l).events = s.events ∨
    ∃ r bytes, parseRecord l = Except.ok r ∧
      (processRec ctx s l).events =
        s.events ++ [(joinPath ctx.output r.path, bytes)] := by
  unfold processRec
  cases hpl : parseRecord l with
  | error e => left; rfl
  | ok r =>
      dsimp only
      split_ifs <;>
        first
          | (left; rfl)
          | (right; exact ⟨r, readBytes ctx.dat s.pos r.size, rfl, rfl⟩)

lemma processRec_dirs_cases (ctx : Ctx) (s : XState) (l : String) :
    (processRec ctx s l).dirs = s.dirs ∨
    ∃ r, parseRecord l = Except.ok r ∧
      (processRec ctx s l).dirs =
        s.dirs ++ [joinPath ctx.output (pyParent r.path)] := by
  unfold processRec
  cases hpl : parseRecord l with
  | error e => left; rfl
  | ok r =>
      dsimp only
      split_ifs <;>
        first
          | (left; rfl)
          | (right; exact ⟨r, rfl, rfl⟩)

lemma processLine_events_cases (ctx : Ctx) (s : XState) (k : Nat)
    (l : String) :
    (processLine ctx s (k, l)).events = s.events ∨
    ∃ r bytes, parseRecord l = Except.ok r ∧
      (processLine ctx s (k, l)).events =
        s.events ++ [(joinPath ctx.output r.path, bytes)] := by
  by_cases herr : s.err.isSome = true
  · left; simp [processLine, herr]
  · have h0 : processLine ctx s (k, l) = processRec ctx (progLog k s) l := by
      simp [processLine, herr]
    rw [h0]
    rcases processRec_events_cases ctx (progLog k s) l with hc | ⟨r, b, hpl, hc⟩
    · left; rw [hc, progLog_events]
    · right; exact ⟨r, b, hpl, by rw [hc, progLog_events]⟩

lemma processLine_dirs_cases (ctx : Ctx) (s : XState) (k : Nat) (l : String) :
    (processLine ctx s (k, l)).dirs = s.dirs ∨
    ∃ r, parseRecord l = Except.ok r ∧
      (processLine ctx s (k, l)).dirs =
        s.dirs ++ [joinPath ctx.output (pyParent r.path)] := by
  by_cases herr : s.err.isSome = true
  · left; simp [processLine, herr]
  · have h0 : processLine ctx s (k, l) = processRec ctx (progLog k s) l := by
      simp [processLine, herr]
    rw [h0]
    rcases processRec_dirs_cases ctx (progLog k s) l with hc | ⟨r, hpl, hc⟩
    · left; rw [hc, progLog_dirs]
    · right; exact ⟨r, hpl, by rw [hc, progLog_dirs]⟩

lemma resolveComps_append (xs ys : List String) :
    ∀ acc, resolveComps acc (xs ++ ys) = resolveComps (resolveComps acc xs) ys := by
  induction xs with
  | nil => intro acc; rfl
  | cons c rest ih =>
      intro acc
      simp only [List.cons_append, resolveComps]
      split <;> apply ih

lemma resolveComps_no_dotdot (bs : List String) (h : ".." ∉ bs) :
    ∀ acc, resolveComps acc bs = acc ++ bs := by
  induction bs with
  | nil => intro acc; simp [resolveComps]
  | cons c rest ih =>
      intro acc
      have hc : c ≠ ".." := fun hc => h (hc ▸ List.mem_cons_self c rest)
      simp only [resolveComps, if_neg hc]
      rw [ih (fun hm => h (List.mem_cons_of_mem _ hm))]
      simp

lemma underSubtree_join (a b : PyPath) (habs : b.absolute = false)
    (hdd : ".." ∉ b.components) : underSubtree a (joinPath a b) = true := by
  have hj : joinPath a b =
      { absolute := a.absolute, components := a.components ++ b.components } := by
    simp [joinPath, habs]
  rw [hj]
  simp only [underSubtree, osResolve]
  rw [resolveComps_append, resolveComps_no_dotdot b.components hdd]
  simp [List.isPrefixOf_iff_prefix]

lemma foldl_under (ctx : Ctx) :
    ∀ (lines : List String) (k : Nat) (s : XState),
      (∀ l ∈ lines, ∀ r, parseRecord l = Except.ok r →
        r.path.absolute = false ∧ ".." ∉ r.path.components) →
      (∀ pe ∈ s.events, underSubtree ctx.output pe.1 = true) →
      (∀ d ∈ s.dirs, underSubtree ctx.output d = true) →
      (∀ pe ∈ ((List.enumFrom k lines).foldl (processLine ctx) s).events,
        underSubtree ctx.output pe.1 = true) ∧
      (∀ d ∈ ((List.enumFrom k lines).foldl (processLine ctx) s).dirs,
        underSubtree ctx.output d = true) := by
  intro lines
  induction lines with
  | nil => intro k s _ he hd; exact ⟨he, hd⟩
  | cons l rest ih =>
      intro k s hsafe he hd
      have hcons : List.enumFrom k (l :: rest) =
          (k, l) :: List.enumFrom (k + 1) rest := rfl
      rw [hcons, List.foldl_cons]
      apply ih (k + 1) (processLine ctx s (k, l))
        (fun x hx => hsafe x (List.mem_cons_of_mem _ hx))
      · intro pe hpe
        rcases processLine_events_cases ctx s k l with hc | ⟨r, b, hpl, hc⟩
        · exact he pe (hc ▸ hpe)
        · rw [hc] at hpe
          rcases List.mem_append.mp hpe with h1 | h1
          · exact he pe h1
          · obtain ⟨habs, hdd⟩ := hsafe l (List.mem_cons_self l rest) r hpl
            have : pe = (joinPath ctx.output r.path, b) := by simpa using h1
            rw [this]
            exact underSubtree_join ctx.output r.path habs hdd
      · intro d hdm
        rcases processLine_dirs_cases ctx s k l with hc | ⟨r, hpl, hc⟩
        · exact hd d (hc ▸ hdm)
        · rw [hc] at hdm
          rcases List.mem_append.mp hdm with h1 | h1
          · exact hd d h1
          · obtain ⟨habs, hdd⟩ := hsafe l (List.mem_cons_self l rest) r hpl
            have hde : d = joinPath ctx.output (pyParent r.path) := by
              simpa using h1
            rw [hde]
            refine underSubtree_join ctx.output (pyParent r.path) habs ?_
            exact fun hm => hdd ((List.dropLast_sublist r.path.components).subset hm)

/-- C6 (amended): every file write and directory creation of `extract_cat`
targets the output root joined with a record path (resp. its parent); when
every record path a line parses to is relative and free of `".."`
components, all writes and directory creations stay inside the output
subtree — with `".."` or an absolute record path they can escape it. -/
theorem C6_amended (lines : List String) (dat : List Nat) (output : PyPath)
    (exts : List String) (orc : Oracle) (initDirs : List PyPath)
    (hsafe : ∀ l ∈ lines, ∀ r, parseRecord l = Except.ok r →
      r.path.absolute = false ∧ ".." ∉ r.path.components) :
    (∀ pe ∈ (extract_cat true lines (some dat) output exts orc
        initDirs).events, underSubtree output pe.1 = true) ∧
    (∀ d ∈ (extract_cat true lines (some dat) output exts orc initDirs).dirs,
      underSubtree output d = true) := by
  rw [extract_cat_events, extract_cat_dirs]
  exact foldl_under ⟨output, exts, orc, initDirs, dat⟩ lines 1 initState hsafe
    (by intro pe hpe; simp [initState] at hpe)
    (by intro d hd; simp [initState] at hd)

/-- Witness for `C6_amended` on a nested, `".."`-free record path. -/
theorem C6_amended_witness :
    (∀ pe ∈ (extract_cat true ["a/b.xml x y 1 0 0"] (some [5])
        ⟨false, ["out"]⟩ ["xml"] okOracle []).events,
      underSubtree ⟨false, ["out"]⟩ pe.1 = true) ∧
    (∀ d ∈ (extract_cat true ["a/b.xml x y 1 0 0"] (some [5])
        ⟨false, ["out"]⟩ ["xml"] okOracle []).dirs,
      underSubtree ⟨false, ["out"]⟩ d = true) := by
  apply C6_amended
  intro l hl r hr
  have hl2 : l = "a/b.xml x y 1 0 0" := by simpa using hl
  subst hl2
  have h0 : parseRecord "a/b.xml x y 1 0 0" =
      Except.ok ⟨⟨false, ["a", "b.xml"]⟩, 1⟩ := rfl
  rw [h0] at hr
  cases hr
  exact ⟨rfl, by decide⟩

end Xtract
